import Mathlib

/-!
Verification of the Bewerbungsassistent repository (two entry points:
the Flask programmatic endpoint `api.py`, modelled in namespace `Api`,
and the Streamlit interactive form `app.py`, modelled in namespace `App`).

The spaCy part-of-speech tagger and the OpenAI generation client are
external collaborators: they are modelled as explicit function arguments
(`nlp : String → List Token`, `gen : String → Except String String`),
and `extract_keywords` is stated over the tagger's token output, as the
spec's contract does.  The PDF / DOCX reading libraries are likewise
modelled by their outcome: either an exception carrying a message
(`Except.error`) or the per-page / per-paragraph texts (`Except.ok`).

Python-specific primitives (`str.lower`, `str.strip`, `list` slicing,
`collections.Counter.most_common`, `str.split`, substring `in`) are
embedded below as executable Lean functions mirroring CPython semantics.
-/

/-- Python `str.lower` restricted to the alphabet this repository works
with: ASCII letters and the German umlaut letters.  (CPython lowercases
further Unicode ranges, but every string this program lowercases is
German text, and the fixed word lists are pure ASCII-plus-umlauts.) -/
def lowerChar (c : Char) : Char :=
  if h : 65 ≤ c.toNat ∧ c.toNat ≤ 90 then
    ⟨c.val + 32, by
      have hv : c.val.toNat = c.toNat := rfl
      have h32 : (32 : UInt32).toNat = 32 := rfl
      have hadd : (c.val + 32).toNat = (c.val.toNat + (32 : UInt32).toNat) % UInt32.size :=
        UInt32.toNat_add c.val 32
      refine Or.inl ?_
      have hlt : (c.val + 32).toNat < (0xd800 : UInt32).toNat := by
        rw [hadd, hv, h32]
        have : (0xd800 : UInt32).toNat = 0xd800 := rfl
        rw [this]
        have hsz : UInt32.size = 4294967296 := rfl
        rw [hsz]
        omega
      exact hlt⟩
  else if c = 'Ä' then 'ä'
  else if c = 'Ö' then 'ö'
  else if c = 'Ü' then 'ü'
  else c

/-- Python `str.lower` on a whole string. -/
def lowerStr (s : String) : String := ⟨s.data.map lowerChar⟩

/-- The whitespace characters Python's `str.strip` removes from the
ASCII range (the program only ever strips generated German text). -/
def isPyWS (c : Char) : Bool :=
  c = ' ' || c = '\t' || c = '\n' || c = '\r' || c = '\x0b' || c = '\x0c'

/-- Python `str.strip()`: drop leading and trailing whitespace. -/
def pyStrip (s : String) : String :=
  ⟨((s.data.dropWhile isPyWS).reverse.dropWhile isPyWS).reverse⟩

/-- Python truthiness of `text.strip()`: `isBlank s = true` iff the
stripped string is empty, i.e. `s` is empty or whitespace-only. -/
def isBlank (s : String) : Bool := s.data.all isPyWS

/-- `l₁` is a prefix of `l₂` (Boolean, executable). -/
def listPfx : List Char → List Char → Bool
  | [], _ => true
  | _ :: _, [] => false
  | a :: as, b :: bs => a == b && listPfx as bs

/-- Python's substring test `needle in hay` on character lists. -/
def containsSubL (needle : List Char) : List Char → Bool
  | [] => needle.isEmpty
  | c :: rest => listPfx needle (c :: rest) || containsSubL needle rest

/-- Python's substring test `needle in hay` on strings. -/
def containsSub (needle hay : String) : Bool := containsSubL needle.data hay.data

/-- A token of the spaCy tagger, reduced to the three attributes the
program reads: surface form (`token.text`), coarse grammatical category
(`token.pos_`) and the stop-word flag (`token.is_stop`). -/
structure Token where
  text : String
  pos : String
  is_stop : Bool
deriving DecidableEq

/-- Python list slicing `l[:n]` where `n` may be negative
(`l[:-k]` drops the last `k` elements). -/
def pySliceList (n : Int) (l : List String) : List String :=
  if 0 ≤ n then l.take n.toNat else l.take (l.length - (-n).toNat)

/-- Python string slicing `s[:n]` for a non-negative literal `n`. -/
def pySliceStr (n : Nat) (s : String) : String := ⟨s.data.take n⟩

/-- `collections.Counter(l)`: counts with keys in first-occurrence
order (Python dicts preserve insertion order). -/
def counterOf (l : List String) : List (String × Nat) :=
  l.foldl
    (fun acc k =>
      if acc.any (fun p => p.1 == k) then
        acc.map (fun p => if p.1 == k then (p.1, p.2 + 1) else p)
      else acc ++ [(k, 1)])
    []

/-- Stable insertion for a descending-count sort: an element goes in
front of the first entry whose count it reaches, so earlier entries
stay first among equal counts. -/
def insertDesc (x : String × Nat) : List (String × Nat) → List (String × Nat)
  | [] => [x]
  | y :: ys => if y.2 ≤ x.2 then x :: y :: ys else y :: insertDesc x ys

/-- Stable sort by descending count, as `heapq.nlargest` (and hence
`Counter.most_common`) orders entries: count descending, ties in the
counter's own (first-occurrence) order. -/
def sortDesc : List (String × Nat) → List (String × Nat)
  | [] => []
  | x :: xs => insertDesc x (sortDesc xs)

/-- `Counter.most_common(n)`: the `n` highest counts, stably; CPython's
`heapq.nlargest` returns `[]` for `n ≤ 0`, which `most_common` inherits
(the source calls it with `5 - len(prioritized)`, which can be
negative). -/
def mostCommon (c : List (String × Nat)) (n : Int) : List (String × Nat) :=
  if 0 ≤ n then (sortDesc c).take n.toNat else []

/-- The character class of the validation regex `[a-zA-ZäöüÄÖÜß]`. -/
def isGermanAlpha (c : Char) : Bool :=
  ('a' ≤ c && c ≤ 'z') || ('A' ≤ c && c ≤ 'Z') ||
    c = 'ä' || c = 'ö' || c = 'ü' || c = 'Ä' || c = 'Ö' || c = 'Ü' || c = 'ß'

/-- `re.search(r'[a-zA-ZäöüÄÖÜß]{3,}', text)` is truthy: somewhere in
the text stand three consecutive characters of the class. -/
def hasAlphaRun3 : List Char → Bool
  | a :: b :: c :: rest =>
    (isGermanAlpha a && isGermanAlpha b && isGermanAlpha c) || hasAlphaRun3 (b :: c :: rest)
  | _ => false

/-- `"".join(page.extract_text() or "" for page in pdf.pages)`: the
concatenated page texts, a page with no text contributing `""`. -/
def joinPages (pages : List (Option String)) : String :=
  String.join (pages.map (fun p => p.getD ""))

/-- `', '.join(keywords)`. -/
def joinComma (l : List String) : String := String.intercalate ", " l

/-- The `try/except` around the OpenAI chat-completion call, identical
in both entry points: a successful response is stripped, an exception
becomes the marker-prefixed message. -/
def matchGen (r : Except String String) : String :=
  match r with
  | .ok content => pyStrip content
  | .error e => "Fehler bei der API-Anfrage: " ++ e

/-- One block of the exported document: `python-docx`'s `add_heading`
and `add_paragraph` calls, in order. -/
inductive DocxBlock where
  | heading (level : Nat) (text : String)
  | para (text : String)
deriving DecidableEq

/-- Helper for `split2NL`: prepend a character to the first chunk. -/
def consHead (c : Char) : List (List Char) → List (List Char)
  | [] => [[c]]
  | h :: t => (c :: h) :: t

/-- Python `text.split("\n\n")`: left-to-right, non-overlapping
occurrences of the double newline separate the chunks. -/
def split2NL : List Char → List (List Char)
  | [] => [[]]
  | [c] => [[c]]
  | c :: d :: rest =>
    if c = '\n' ∧ d = '\n' then [] :: split2NL rest
    else consHead c (split2NL (d :: rest))

namespace Api

/-- `api.py` line 71: terms excluded from keyword candidacy. -/
def blacklisted_terms : List String :=
  ["daten", "persönliche", "nachname", "geburtsort", "geburtstag",
   "adresse", "telefon", "email", "e-mail", "straße", "postleitzahl"]

/-- `api.py` line 75: the fixed ordered priority list. -/
def priority_terms : List String :=
  ["vermögensberatung", "kundenberatung", "finanzwesen", "bankkauffrau",
   "bankkaufmann", "kundenmanagement", "finanzprodukte"]

/-- The local `keywords` of `extract_keywords` (`api.py` lines 82–88):
the candidate multiset, built from the tagger's tokens. -/
def candidatesOf (doc : List Token) : List String :=
  doc.filterMap fun token =>
    if (token.pos == "NOUN" || token.pos == "ADJ" || token.pos == "VERB")
        && decide (3 < token.text.length)
        && !token.is_stop
        && !(blacklisted_terms.contains (lowerStr token.text)) then
      some (lowerStr token.text)
    else none

/-- The local `prioritized` (`api.py` line 90): priority terms present
in the candidate list, in the priority list's order. -/
def prioritizedOf (doc : List Token) : List String :=
  priority_terms.filter fun word => (candidatesOf doc).contains word

/-- The local `other_keywords` (`api.py` line 91):
`[word for word, count in keyword_counts.most_common(5 - len(prioritized))]`. -/
def other_keywordsOf (doc : List Token) : List String :=
  (mostCommon (counterOf (candidatesOf doc))
    (5 - ((prioritizedOf doc).length : Int))).map Prod.fst

/-- `api.py` lines 80–92, over the tagger's output for the input text:
`return prioritized + other_keywords[:5 - len(prioritized)]`. -/
def extract_keywords (doc : List Token) : List String :=
  prioritizedOf doc ++
    pySliceList (5 - ((prioritizedOf doc).length : Int)) (other_keywordsOf doc)

/-- `api.py` lines 95–96. -/
def is_valid_input (text : String) : Bool :=
  decide (10 ≤ text.length) && hasAlphaRun3 text.data

/-- `api.py` lines 42–54: PDF extraction over the reading library's
outcome.  A raised exception is caught and turned into a message
carrying the cause; empty or whitespace-only text becomes the
distinguished no-extractable-text message. -/
def extract_text_from_pdf (pdf : Except String (List (Option String))) : String :=
  match pdf with
  | .error e => "Fehler beim Lesen der PDF: " ++ e
  | .ok pages =>
    let text := joinPages pages
    if isBlank text then "Fehler: Kein extrahierbarer Text in der PDF-Datei."
    else text

/-- `api.py` lines 56–68: DOCX extraction over the per-paragraph texts. -/
def extract_text_from_docx (docx : Except String (List String)) : String :=
  match docx with
  | .error e => "Fehler beim Lesen der DOCX: " ++ e
  | .ok paragraphs =>
    let text := String.join paragraphs
    if isBlank text then "Fehler: Kein extrahierbarer Text in der DOCX-Datei."
    else text

/-- The f-string of `api.py` lines 108–124, with each interpolation an
explicit argument (`cv_text[:1000]`, `', '.join(cv_keywords)`, …). -/
def build_prompt (tone name company cv_text : String) (cv_keywords : List String)
    (job_text : String) (job_keywords : List String) (strengths weaknesses : String) : String :=
  "\n    Erstelle ein " ++ lowerStr tone ++
  "es Motivationsschreiben auf Deutsch für " ++ name ++
  ", der/die sich bei " ++ company ++
  " auf eine Position als Bankkauffrau/-mann bewirbt. Verwende die folgenden Informationen:\n\n    **Lebenslauf (Auszug)**: " ++
  pySliceStr 1000 cv_text ++
  "\n    **Wichtige Schlüsselwörter aus dem Lebenslauf**: " ++ joinComma cv_keywords ++
  "\n    **Stellenprofil (Auszug)**: " ++ pySliceStr 1000 job_text ++
  "\n    **Wichtige Schlüsselwörter aus dem Stellenprofil**: " ++ joinComma job_keywords ++
  "\n    **Stärken**: " ++ strengths ++
  "\n    **Schwächen**: " ++ weaknesses ++
  "\n\n    Das Schreiben soll:\n    - Höflich und professionell sein.\n    - Die Qualifikationen des Bewerbers mit den Anforderungen der Stelle verknüpfen.\n    - Stärken hervorheben und Schwächen positiv darstellen.\n    - Maximal 400 Wörter lang sein.\n    - Mit einer höflichen Schlussformel enden.\n    "

/-- `api.py` lines 99–141.  The tagger and the generation client are
explicit dependencies; the precondition checks come first, so a
violated precondition yields the corresponding message without either
dependency being applied. -/
def generate_cover_letter (nlp : String → List Token) (gen : String → Except String String)
    (cv_text job_text strengths weaknesses name company tone : String) : String :=
  if cv_text == "" || job_text == "" || strengths == "" || weaknesses == "" ||
      name == "" || company == "" then
    "Fehler: Alle Felder müssen ausgefüllt sein."
  else if !is_valid_input strengths || !is_valid_input weaknesses then
    "Fehler: Stärken und Schwächen müssen sinnvolle Eingaben sein."
  else
    matchGen (gen (build_prompt tone name company cv_text
      (extract_keywords (nlp cv_text)) job_text (extract_keywords (nlp job_text))
      strengths weaknesses))

/-- An uploaded file as the endpoint sees it: declared media type, and
the outcome of handing it to the PDF or DOCX reading library. -/
structure UploadedFile where
  mimetype : String
  pdfRead : Except String (List (Option String))
  docxRead : Except String (List String)

/-- A multipart request to `/generate_cover_letter`: `request.files.get`
and `request.form.get` results (`none` for a missing part). -/
structure Request where
  cv_file : Option UploadedFile
  job_file : Option UploadedFile
  strengths : Option String
  weaknesses : Option String
  name : Option String
  company : Option String
  tone : Option String

/-- The endpoint's observable response: HTTP status, the message or
letter, and the two keyword lists of a 200 body (empty otherwise). -/
structure ApiResponse where
  status : Nat
  body : String
  cv_keywords : List String
  job_keywords : List String
deriving DecidableEq

/-- A non-200 `jsonify({"error": ...}), status` response. -/
def errorResponse (status : Nat) (msg : String) : ApiResponse := ⟨status, msg, [], []⟩

/-- The DOCX media type accepted for the résumé. -/
def docxMime : String :=
  "application/vnd.openxmlformats-officedocument.wordprocessingml.document"

/-- `api.py` lines 144–222, the `/generate_cover_letter` route: file
presence checks, media-type dispatch, extraction, the `"Fehler" in`
marker checks, field and validity checks, then generation. -/
def api_generate_cover_letter (nlp : String → List Token)
    (gen : String → Except String String) (req : Request) : ApiResponse :=
  match req.cv_file with
  | none => errorResponse 400 "Bitte laden Sie einen Lebenslauf hoch."
  | some cv_file =>
    match req.job_file with
    | none => errorResponse 400 "Bitte laden Sie ein Stellenprofil hoch."
    | some job_file =>
      let afterExtraction : String → String → ApiResponse := fun cv_text job_text =>
        if containsSub "Fehler" cv_text then
          errorResponse 400 ("Fehler beim Verarbeiten des Lebenslaufs: " ++ cv_text)
        else if containsSub "Fehler" job_text then
          errorResponse 400 ("Fehler beim Verarbeiten des Stellenprofils: " ++ job_text)
        else if req.name.getD "" == "" || req.company.getD "" == "" ||
            req.strengths.getD "" == "" || req.weaknesses.getD "" == "" then
          errorResponse 400 "Alle Textfelder müssen ausgefüllt sein."
        else if !is_valid_input (req.strengths.getD "") ||
            !is_valid_input (req.weaknesses.getD "") then
          errorResponse 400 "Stärken und Schwächen müssen sinnvolle Eingaben sein."
        else
          let cover_letter := generate_cover_letter nlp gen cv_text job_text
            (req.strengths.getD "") (req.weaknesses.getD "") (req.name.getD "")
            (req.company.getD "") (req.tone.getD "Professionell")
          if containsSub "Fehler" cover_letter then errorResponse 500 cover_letter
          else ⟨200, cover_letter, extract_keywords (nlp cv_text),
            extract_keywords (nlp job_text)⟩
      let withJobText : String → ApiResponse := fun cv_text =>
        if job_file.mimetype == "application/pdf" then
          afterExtraction cv_text (extract_text_from_pdf job_file.pdfRead)
        else
          errorResponse 400
            ("Ungültiges Stellenprofil-Format: " ++ job_file.mimetype ++ ". Nur PDF erlaubt.")
      if cv_file.mimetype == "application/pdf" then
        withJobText (extract_text_from_pdf cv_file.pdfRead)
      else if cv_file.mimetype == docxMime then
        withJobText (extract_text_from_docx cv_file.docxRead)
      else
        errorResponse 400
          ("Ungültiges Lebenslauf-Format: " ++ cv_file.mimetype ++ ". Nur PDF oder DOCX erlaubt.")

/-- The document built by `api.py` lines 237–240: a level-1 heading
with the fixed title, then one stripped paragraph per chunk of
`cover_letter.split("\n\n")`. -/
def generate_docx_document (cover_letter : String) : List DocxBlock :=
  DocxBlock.heading 1 "Motivationsschreiben" ::
    (split2NL cover_letter.data).map (fun p => DocxBlock.para (pyStrip ⟨p⟩))

/-- `api.py` lines 227–245, the `/generate_docx` route: a missing or
falsy `cover_letter` gives 400, otherwise the document is built. -/
def generate_docx (cover_letter : Option String) : Nat × Option (List DocxBlock) :=
  if cover_letter.getD "" == "" then (400, none)
  else (200, some (generate_docx_document (cover_letter.getD "")))

end Api

namespace App

/-- `app.py` lines 32–38: the interactive form's PDF extraction.  The
exception is caught, but there is no emptiness check: empty text is
returned as-is. -/
def extract_text_from_pdf (pdf : Except String (List (Option String))) : String :=
  match pdf with
  | .error e => "Fehler beim Lesen der PDF: " ++ e
  | .ok pages => joinPages pages

/-- `app.py` lines 40–46: likewise for DOCX. -/
def extract_text_from_docx (docx : Except String (List String)) : String :=
  match docx with
  | .error e => "Fehler beim Lesen der DOCX: " ++ e
  | .ok paragraphs => String.join paragraphs

/-- `app.py` line 49 (textually identical to `api.py`). -/
def blacklisted_terms : List String :=
  ["daten", "persönliche", "nachname", "geburtsort", "geburtstag",
   "adresse", "telefon", "email", "e-mail", "straße", "postleitzahl"]

/-- `app.py` line 53 (textually identical to `api.py`). -/
def priority_terms : List String :=
  ["vermögensberatung", "kundenberatung", "finanzwesen", "bankkauffrau",
   "bankkaufmann", "kundenmanagement", "finanzprodukte"]

/-- The local `keywords` of `app.py` lines 60–66. -/
def candidatesOf (doc : List Token) : List String :=
  doc.filterMap fun token =>
    if (token.pos == "NOUN" || token.pos == "ADJ" || token.pos == "VERB")
        && decide (3 < token.text.length)
        && !token.is_stop
        && !(blacklisted_terms.contains (lowerStr token.text)) then
      some (lowerStr token.text)
    else none

/-- The local `prioritized` of `app.py` line 68. -/
def prioritizedOf (doc : List Token) : List String :=
  priority_terms.filter fun word => (candidatesOf doc).contains word

/-- The local `other_keywords` of `app.py` line 69. -/
def other_keywordsOf (doc : List Token) : List String :=
  (mostCommon (counterOf (candidatesOf doc))
    (5 - ((prioritizedOf doc).length : Int))).map Prod.fst

/-- `app.py` lines 58–70, over the tagger's output. -/
def extract_keywords (doc : List Token) : List String :=
  prioritizedOf doc ++
    pySliceList (5 - ((prioritizedOf doc).length : Int)) (other_keywordsOf doc)

/-- `app.py` lines 73–74. -/
def is_valid_input (text : String) : Bool :=
  decide (10 ≤ text.length) && hasAlphaRun3 text.data

/-- The document built by `save_cover_letter` (`app.py` lines 114–120):
the same fixed heading and stripped `split("\n\n")` chunks as the
endpoint's exporter. -/
def save_cover_letter (text : String) : List DocxBlock :=
  DocxBlock.heading 1 "Motivationsschreiben" ::
    (split2NL text.data).map (fun p => DocxBlock.para (pyStrip ⟨p⟩))

end App

/-- The spec's description of the keyword list (§4.3 steps 5–7 / the C2
claim, written from the spec's words, to be compared with the code):
the priority terms present among the candidates, in the priority list's
order, followed by the top `5 - p` terms by descending frequency, ties
in first-occurrence order of the counting structure, drawn from the
full frequency pool. -/
def keywordsSpec (doc : List Token) : List String :=
  let prio := Api.priority_terms.filter fun w => (Api.candidatesOf doc).contains w
  prio ++
    ((sortDesc (counterOf (Api.candidatesOf doc))).map Prod.fst).take (5 - prio.length)

/-! ## Helper lemmas: the lowering function -/

/-- The code point of a lowered upper-case ASCII letter. -/
theorem lowerChar_toNat_of_upper (c : Char) (h : 65 ≤ c.toNat ∧ c.toNat ≤ 90) :
    (lowerChar c).toNat = c.toNat + 32 := by
  unfold lowerChar
  rw [dif_pos h]
  show (c.val + 32).toNat = c.toNat + 32
  have hadd : (c.val + 32).toNat = (c.val.toNat + (32 : UInt32).toNat) % UInt32.size :=
    UInt32.toNat_add c.val 32
  have hv : c.val.toNat = c.toNat := rfl
  have h32 : (32 : UInt32).toNat = 32 := rfl
  have hsz : UInt32.size = 4294967296 := rfl
  rw [hadd, hv, h32, hsz]
  omega

/-- `lowerChar` leaves a character with no upper-case form unchanged. -/
theorem lowerChar_of_not_upper (c : Char)
    (h : ¬(65 ≤ c.toNat ∧ c.toNat ≤ 90)) (h1 : c ≠ 'Ä') (h2 : c ≠ 'Ö') (h3 : c ≠ 'Ü') :
    lowerChar c = c := by
  unfold lowerChar
  rw [dif_neg h, if_neg h1, if_neg h2, if_neg h3]

/-- Lowercasing is idempotent. -/
theorem lowerChar_idem (c : Char) : lowerChar (lowerChar c) = lowerChar c := by
  by_cases h : 65 ≤ c.toNat ∧ c.toNat ≤ 90
  · have ht : (lowerChar c).toNat = c.toNat + 32 := lowerChar_toNat_of_upper c h
    have hnot : ¬(65 ≤ (lowerChar c).toNat ∧ (lowerChar c).toNat ≤ 90) := by
      rw [ht]; omega
    have hne : ∀ d : Char, (lowerChar c).toNat ≠ d.toNat → lowerChar c ≠ d := by
      intro d hd he; exact hd (he ▸ rfl)
    have hA : ('Ä' : Char).toNat = 196 := rfl
    have hO : ('Ö' : Char).toNat = 214 := rfl
    have hU : ('Ü' : Char).toNat = 220 := rfl
    refine lowerChar_of_not_upper _ hnot (hne _ ?_) (hne _ ?_) (hne _ ?_) <;>
      rw [ht] <;> first
      | (rw [hA]; omega)
      | (rw [hO]; omega)
      | (rw [hU]; omega)
  · by_cases h1 : c = 'Ä'
    · subst h1
      have : lowerChar 'Ä' = 'ä' := by decide
      rw [this]; decide
    · by_cases h2 : c = 'Ö'
      · subst h2
        have : lowerChar 'Ö' = 'ö' := by decide
        rw [this]; decide
      · by_cases h3 : c = 'Ü'
        · subst h3
          have : lowerChar 'Ü' = 'ü' := by decide
          rw [this]; decide
        · rw [lowerChar_of_not_upper c h h1 h2 h3, lowerChar_of_not_upper c h h1 h2 h3]

/-- Lowercasing a whole string is idempotent. -/
theorem lowerStr_idem (s : String) : lowerStr (lowerStr s) = lowerStr s := by
  unfold lowerStr
  apply congrArg
  simp [List.map_map, Function.comp_def, lowerChar_idem]

/-! ## Helper lemmas: substring search -/

theorem listPfx_self_append (l t : List Char) : listPfx l (l ++ t) = true := by
  induction l with
  | nil => rfl
  | cons a as ih => simp [listPfx, ih]

theorem listPfx_mono (n u v : List Char) (h : listPfx n u = true) :
    listPfx n (u ++ v) = true := by
  induction n generalizing u with
  | nil => rfl
  | cons a as ih =>
    cases u with
    | nil => simp [listPfx] at h
    | cons b bs =>
      simp only [listPfx, Bool.and_eq_true] at h
      simp only [List.cons_append, listPfx, Bool.and_eq_true]
      exact ⟨h.1, ih bs h.2⟩

theorem containsSubL_nil_needle (v : List Char) : containsSubL [] v = true := by
  cases v with
  | nil => rfl
  | cons c cs =>
    simp only [containsSubL, Bool.or_eq_true]
    exact Or.inl rfl

theorem containsSubL_cons (needle : List Char) (c : Char) (rest : List Char)
    (h : containsSubL needle rest = true) : containsSubL needle (c :: rest) = true := by
  simp [containsSubL, h]

/-- The needle occurs when the hay literally contains it. -/
theorem containsSubL_append (needle u v : List Char) :
    containsSubL needle (u ++ (needle ++ v)) = true := by
  induction u with
  | nil =>
    cases needle with
    | nil => simpa using containsSubL_nil_needle v
    | cons a as =>
      simp only [List.nil_append, containsSubL, Bool.or_eq_true]
      exact Or.inl (by simpa using listPfx_self_append (a :: as) v)
  | cons c cs ih => exact containsSubL_cons _ _ _ ih

theorem containsSubL_self (needle v : List Char) :
    containsSubL needle (needle ++ v) = true := by
  simpa using containsSubL_append needle [] v

/-- Absorb any prefix of the hay. -/
theorem containsSubL_append_right (needle u v : List Char)
    (h : containsSubL needle v = true) : containsSubL needle (u ++ v) = true := by
  induction u with
  | nil => simpa using h
  | cons c cs ih => exact containsSubL_cons _ _ _ ih

/-- A needle found in a hay is still found after extending it. -/
theorem containsSubL_append_left (needle u v : List Char)
    (h : containsSubL needle u = true) : containsSubL needle (u ++ v) = true := by
  induction u with
  | nil =>
    simp only [containsSubL, List.isEmpty_iff] at h
    subst h
    exact containsSubL_nil_needle v
  | cons c cs ih =>
    simp only [containsSubL, Bool.or_eq_true] at h
    rcases h with h | h
    · simp only [List.cons_append, containsSubL, Bool.or_eq_true]
      exact Or.inl (by simpa using listPfx_mono needle (c :: cs) v h)
    · exact containsSubL_cons _ _ _ (ih h)

/-! ## Helper lemmas: the counter and the stable descending sort -/

/-- Bumping a count leaves the keys unchanged. -/
theorem map_fst_bump (acc : List (String × Nat)) (x : String) :
    ((acc.map (fun p => if p.1 == x then (p.1, p.2 + 1) else p)).map Prod.fst) =
      acc.map Prod.fst := by
  rw [List.map_map]
  apply List.map_congr_left
  intro p _
  show (if p.1 == x then (p.1, p.2 + 1) else p).1 = p.1
  split <;> rfl

/-- Every key of the counter fold comes from the accumulator or the list. -/
theorem counter_fold_mem (l : List String) :
    ∀ (acc : List (String × Nat)) (k : String),
      k ∈ (l.foldl
        (fun acc k =>
          if acc.any (fun p => p.1 == k) then
            acc.map (fun p => if p.1 == k then (p.1, p.2 + 1) else p)
          else acc ++ [(k, 1)])
        acc).map Prod.fst →
      k ∈ acc.map Prod.fst ∨ k ∈ l := by
  induction l with
  | nil =>
    intro acc k h
    exact Or.inl h
  | cons x xs ih =>
    intro acc k h
    rw [List.foldl_cons] at h
    rcases ih _ _ h with h' | h'
    · by_cases hx : acc.any (fun p => p.1 == x)
      · rw [if_pos hx, map_fst_bump] at h'
        exact Or.inl h'
      · rw [if_neg hx, List.map_append] at h'
        rcases List.mem_append.mp h' with h'' | h''
        · exact Or.inl h''
        · simp only [List.map_cons, List.map_nil, List.mem_singleton] at h''
          exact Or.inr (h'' ▸ List.mem_cons_self x xs)
    · exact Or.inr (List.mem_cons_of_mem x h')

/-- The counter fold keeps the keys distinct. -/
theorem counter_fold_nodup (l : List String) :
    ∀ acc : List (String × Nat),
      (acc.map Prod.fst).Nodup →
      ((l.foldl
        (fun acc k =>
          if acc.any (fun p => p.1 == k) then
            acc.map (fun p => if p.1 == k then (p.1, p.2 + 1) else p)
          else acc ++ [(k, 1)])
        acc).map Prod.fst).Nodup := by
  induction l with
  | nil => intro acc h; exact h
  | cons x xs ih =>
    intro acc h
    rw [List.foldl_cons]
    apply ih
    by_cases hx : acc.any (fun p => p.1 == x)
    · rw [if_pos hx, map_fst_bump]
      exact h
    · rw [if_neg hx, List.map_append]
      rw [List.nodup_append]
      refine ⟨h, List.nodup_singleton x, ?_⟩
      intro a ha hb
      simp only [List.map_cons, List.map_nil, List.mem_singleton] at hb
      obtain ⟨p, hp, hpa⟩ := List.mem_map.mp ha
      have hne : p.1 ≠ x := by
        have := List.any_eq_false.mp (Bool.of_not_eq_true hx) p hp
        simpa using this
      exact hne (hpa.trans hb)

/-- The keys of `counterOf l` all occur in `l`. -/
theorem counterOf_mem (l : List String) (k : String)
    (h : k ∈ (counterOf l).map Prod.fst) : k ∈ l := by
  rcases counter_fold_mem l [] k h with h' | h'
  · simp at h'
  · exact h'

/-- The keys of `counterOf l` are distinct. -/
theorem counterOf_nodup (l : List String) : ((counterOf l).map Prod.fst).Nodup :=
  counter_fold_nodup l [] (by simp)

/-- Stable insertion is a permutation of consing. -/
theorem insertDesc_perm (x : String × Nat) (l : List (String × Nat)) :
    (insertDesc x l).Perm (x :: l) := by
  induction l with
  | nil => exact List.Perm.refl _
  | cons y ys ih =>
    by_cases h : y.2 ≤ x.2
    · rw [insertDesc, if_pos h]
    · rw [insertDesc, if_neg h]
      exact (ih.cons y).trans (List.Perm.swap x y ys)

/-- The stable descending sort permutes its input. -/
theorem sortDesc_perm (l : List (String × Nat)) : (sortDesc l).Perm l := by
  induction l with
  | nil => exact List.Perm.refl _
  | cons x xs ih => exact (insertDesc_perm x (sortDesc xs)).trans (ih.cons x)

/-! ## Helper lemmas: the keyword extractor -/

/-- The return value of `extract_keywords`, with the `most_common` /
slicing bookkeeping resolved: the prioritized terms followed by the
first `5 - p` entries of the stably descending-sorted counter. -/
theorem extract_keywords_eq (doc : List Token) :
    Api.extract_keywords doc =
      Api.prioritizedOf doc ++
        ((sortDesc (counterOf (Api.candidatesOf doc))).map Prod.fst).take
          (5 - (Api.prioritizedOf doc).length) := by
  unfold Api.extract_keywords Api.other_keywordsOf pySliceList mostCommon
  by_cases h : (Api.prioritizedOf doc).length ≤ 5
  · have h0 : (0 : Int) ≤ 5 - ((Api.prioritizedOf doc).length : Int) := by omega
    rw [if_pos h0, if_pos h0]
    have htn : ((5 : Int) - ((Api.prioritizedOf doc).length : Int)).toNat =
        5 - (Api.prioritizedOf doc).length := by omega
    rw [htn, List.map_take, List.take_take, Nat.min_self]
  · have h0 : ¬ (0 : Int) ≤ 5 - ((Api.prioritizedOf doc).length : Int) := by omega
    rw [if_neg h0, if_neg h0]
    have hz : 5 - (Api.prioritizedOf doc).length = 0 := by omega
    rw [hz]
    simp

/-- Every candidate is an already-lowercased token text that survived
the blacklist filter. -/
theorem mem_candidatesOf (doc : List Token) (k : String) (h : k ∈ Api.candidatesOf doc) :
    lowerStr k = k ∧ k ∉ Api.blacklisted_terms := by
  rw [Api.candidatesOf, List.mem_filterMap] at h
  obtain ⟨t, _, ht⟩ := h
  by_cases hc : ((t.pos == "NOUN" || t.pos == "ADJ" || t.pos == "VERB")
      && decide (3 < t.text.length)
      && !t.is_stop
      && !(Api.blacklisted_terms.contains (lowerStr t.text))) = true
  · rw [if_pos hc] at ht
    have hk : k = lowerStr t.text := (Option.some.injEq _ _).mp ht.symm
    subst hk
    refine ⟨lowerStr_idem t.text, ?_⟩
    simp only [Bool.and_eq_true, Bool.not_eq_eq_eq_not, Bool.not_true] at hc
    intro hmem
    have helem := List.elem_eq_true_of_mem hmem
    have : Api.blacklisted_terms.contains (lowerStr t.text) = true := helem
    rw [hc.2] at this
    cases this
  · rw [if_neg hc] at ht
    cases ht

/-- The seven priority terms are lowercase and not blacklisted. -/
theorem priority_terms_facts :
    ∀ k ∈ Api.priority_terms, lowerStr k = k ∧ k ∉ Api.blacklisted_terms := by decide

/-- The priority list has no repeats. -/
theorem priority_terms_nodup : Api.priority_terms.Nodup := by decide

/-- Membership in the frequency-fill pool comes from the candidates. -/
theorem mem_fill_pool (doc : List Token) (k : String)
    (h : k ∈ (sortDesc (counterOf (Api.candidatesOf doc))).map Prod.fst) :
    k ∈ Api.candidatesOf doc := by
  have hperm := (sortDesc_perm (counterOf (Api.candidatesOf doc))).map Prod.fst
  exact counterOf_mem _ _ (hperm.mem_iff.mp h)

/-! ## Claim C1 -/

/-- C1 counterexample.  The claim states that `extract_keywords` never
returns a term twice and never more than 5 entries.  On the single-token
tagger output `Finanzwesen` (a noun, not a stop word) the priority match
and the frequency fill each contribute the same term, so the result is
`["finanzwesen", "finanzwesen"]` — a duplicate; and on a text whose
candidates are exactly the seven priority terms the result has 7
entries, more than 5. -/
theorem C1_counterexample :
    Api.extract_keywords [⟨"Finanzwesen", "NOUN", false⟩] =
      ["finanzwesen", "finanzwesen"] ∧
    ¬ (Api.extract_keywords [⟨"Finanzwesen", "NOUN", false⟩]).Nodup ∧
    (Api.extract_keywords
      [⟨"Vermögensberatung", "NOUN", false⟩, ⟨"Kundenberatung", "NOUN", false⟩,
       ⟨"Finanzwesen", "NOUN", false⟩, ⟨"Bankkauffrau", "NOUN", false⟩,
       ⟨"Bankkaufmann", "NOUN", false⟩, ⟨"Kundenmanagement", "NOUN", false⟩,
       ⟨"Finanzprodukte", "NOUN", false⟩]).length = 7 := by
  refine ⟨by decide, by decide, by decide⟩

/-- C1, amended.  For every tagger output, `extract_keywords` returns at
most 7 entries — at most 5 whenever at most 5 priority terms match the
candidates — each entirely lowercase and none blacklisted; the priority
prefix has no duplicates and the frequency fill has no duplicates (so a
term can appear twice only as a priority term repeated by the fill, the
duplication the counterexample exhibits). -/
theorem C1_extract_keywords_shape (doc : List Token) :
    (Api.extract_keywords doc).length ≤ 7
    ∧ ((Api.prioritizedOf doc).length ≤ 5 → (Api.extract_keywords doc).length ≤ 5)
    ∧ (∀ k ∈ Api.extract_keywords doc, lowerStr k = k)
    ∧ (∀ k ∈ Api.extract_keywords doc, k ∉ Api.blacklisted_terms)
    ∧ (Api.prioritizedOf doc).Nodup
    ∧ (pySliceList (5 - ((Api.prioritizedOf doc).length : Int))
        (Api.other_keywordsOf doc)).Nodup := by
  have heq := extract_keywords_eq doc
  have hp7 : (Api.prioritizedOf doc).length ≤ 7 := by
    have := List.length_filter_le
      (fun word => (Api.candidatesOf doc).contains word) Api.priority_terms
    simpa [Api.prioritizedOf] using this
  have hfill : ∀ k ∈ ((sortDesc (counterOf (Api.candidatesOf doc))).map Prod.fst).take
      (5 - (Api.prioritizedOf doc).length), lowerStr k = k ∧ k ∉ Api.blacklisted_terms :=
    fun k hk => mem_candidatesOf doc k (mem_fill_pool doc k (List.mem_of_mem_take hk))
  have hprio : ∀ k ∈ Api.prioritizedOf doc, lowerStr k = k ∧ k ∉ Api.blacklisted_terms := by
    intro k hk
    rw [Api.prioritizedOf, List.mem_filter] at hk
    exact priority_terms_facts k hk.1
  have hlen : (Api.extract_keywords doc).length =
      (Api.prioritizedOf doc).length +
        (((sortDesc (counterOf (Api.candidatesOf doc))).map Prod.fst).take
          (5 - (Api.prioritizedOf doc).length)).length := by
    rw [heq, List.length_append]
  have htk : (((sortDesc (counterOf (Api.candidatesOf doc))).map Prod.fst).take
      (5 - (Api.prioritizedOf doc).length)).length ≤
        5 - (Api.prioritizedOf doc).length := by
    rw [List.length_take]
    exact Nat.min_le_left _ _
  refine ⟨by omega, fun h5 => by omega, ?_, ?_, ?_, ?_⟩
  · intro k hk
    rw [heq] at hk
    rcases List.mem_append.mp hk with h | h
    · exact (hprio k h).1
    · exact (hfill k h).1
  · intro k hk
    rw [heq] at hk
    rcases List.mem_append.mp hk with h | h
    · exact (hprio k h).2
    · exact (hfill k h).2
  · exact List.Nodup.filter _ priority_terms_nodup
  · have hfill_eq : pySliceList (5 - ((Api.prioritizedOf doc).length : Int))
        (Api.other_keywordsOf doc) =
          ((sortDesc (counterOf (Api.candidatesOf doc))).map Prod.fst).take
            (5 - (Api.prioritizedOf doc).length) := by
      have h2 := heq
      rw [Api.extract_keywords] at h2
      exact List.append_cancel_left h2
    rw [hfill_eq]
    have hnodup : ((sortDesc (counterOf (Api.candidatesOf doc))).map Prod.fst).Nodup :=
      ((sortDesc_perm (counterOf (Api.candidatesOf doc))).map Prod.fst).symm.nodup
        (counterOf_nodup _)
    exact hnodup.sublist (List.take_sublist _ _)

/-! ## Claim C2 -/

/-- C2.  For every tagger output, `extract_keywords` returns exactly the
priority terms present in the candidate multiset, in the priority list's
own order, followed by the top `5 - p` candidates by descending
frequency with ties in first-occurrence order of the counting structure
(`keywordsSpec`, written from the spec's words); the fill pool excludes
nothing, in particular not the priority terms. -/
theorem C2_extract_keywords_priority_then_frequency (doc : List Token) :
    Api.extract_keywords doc = keywordsSpec doc := by
  rw [extract_keywords_eq]
  rfl

/-! ## Claim C3 -/

/-- The truthiness of the regex search, characterised: some position of
the text starts three consecutive characters of the class. -/
theorem hasAlphaRun3_iff : ∀ l : List Char,
    hasAlphaRun3 l = true ↔
      ∃ pre a b c post, l = pre ++ a :: b :: c :: post ∧
        isGermanAlpha a = true ∧ isGermanAlpha b = true ∧ isGermanAlpha c = true := by
  intro l
  induction l with
  | nil =>
    constructor
    · intro h; simp [hasAlphaRun3] at h
    · rintro ⟨pre, a, b, c, post, hl, -, -, -⟩
      have := congrArg List.length hl
      simp [List.length_append] at this
      omega
  | cons a rest ih =>
    cases rest with
    | nil =>
      constructor
      · intro h; simp [hasAlphaRun3] at h
      · rintro ⟨pre, x, y, z, post, hl, -, -, -⟩
        have := congrArg List.length hl
        simp [List.length_append] at this
        omega
    | cons b rest2 =>
      cases rest2 with
      | nil =>
        constructor
        · intro h; simp [hasAlphaRun3] at h
        · rintro ⟨pre, x, y, z, post, hl, -, -, -⟩
          have := congrArg List.length hl
          simp [List.length_append] at this
          omega
      | cons c rest3 =>
        constructor
        · intro h
          simp only [hasAlphaRun3, Bool.or_eq_true, Bool.and_eq_true] at h
          rcases h with ⟨⟨ha, hb⟩, hc⟩ | h2
          · exact ⟨[], a, b, c, rest3, rfl, ha, hb, hc⟩
          · obtain ⟨pre, x, y, z, post, hl, hx, hy, hz⟩ := ih.mp h2
            exact ⟨a :: pre, x, y, z, post, by rw [List.cons_append, ← hl], hx, hy, hz⟩
        · rintro ⟨pre, x, y, z, post, hl, hx, hy, hz⟩
          simp only [hasAlphaRun3, Bool.or_eq_true, Bool.and_eq_true]
          cases pre with
          | nil =>
            simp only [List.nil_append, List.cons.injEq] at hl
            obtain ⟨h1, h2, h3, -⟩ := hl
            exact Or.inl ⟨⟨h1 ▸ hx, h2 ▸ hy⟩, h3 ▸ hz⟩
          | cons p pre' =>
            simp only [List.cons_append, List.cons.injEq] at hl
            exact Or.inr (ih.mpr ⟨pre', x, y, z, post, hl.2, hx, hy, hz⟩)

/-- C3.  `is_valid_input` holds exactly when the text has length at
least 10 and contains a run of three consecutive characters of the class
`[a-zA-ZäöüÄÖÜß]`; in particular it rejects `""` and `"1234567890"` and
accepts `"Teamfähigkeit"`. -/
theorem C3_is_valid_input_characterization :
    (∀ s : String, Api.is_valid_input s = true ↔
      (10 ≤ s.length ∧ ∃ pre a b c post, s.data = pre ++ a :: b :: c :: post ∧
        isGermanAlpha a = true ∧ isGermanAlpha b = true ∧ isGermanAlpha c = true))
    ∧ Api.is_valid_input "" = false
    ∧ Api.is_valid_input "1234567890" = false
    ∧ Api.is_valid_input "Teamfähigkeit" = true := by
  refine ⟨?_, by decide, by decide, by decide⟩
  intro s
  rw [Api.is_valid_input, Bool.and_eq_true, decide_eq_true_eq, hasAlphaRun3_iff]

/-! ## Claim C10 -/

/-- C10.  Given identical tagger output, the programmatic endpoint's
`extract_keywords` and the interactive form's `extract_keywords` return
the same keyword list, and their `is_valid_input` functions agree on
every string (the two files carry textually identical definitions). -/
theorem C10_entry_points_agree :
    (∀ doc : List Token, Api.extract_keywords doc = App.extract_keywords doc)
    ∧ (∀ s : String, Api.is_valid_input s = App.is_valid_input s) :=
  ⟨fun _ => rfl, fun _ => rfl⟩

/-! ## Claim C4 -/

/-- C4 counterexample.  The claim states that every extractor of the
repository turns empty or whitespace-only extracted text into the
distinguished no-extractable-text failure.  The interactive form's PDF
extractor (`app.py` lines 32–38) has no such check: on a successfully
read document whose single page yields no text it returns `""` — an
empty success, not the distinguished failure. -/
theorem C4_counterexample :
    App.extract_text_from_pdf (Except.ok [some ""]) = ""
    ∧ isBlank "" = true
    ∧ ("" : String) ≠ "Fehler: Kein extrahierbarer Text in der PDF-Datei." := by
  refine ⟨by decide, by decide, by decide⟩

/-- C4, amended.  All four extractors catch the underlying read error
and convert it into a failure value carrying the cause; the programmatic
endpoint's extractors (`api.py`) additionally turn empty or
whitespace-only concatenated text into the distinguished
no-extractable-text failure, while the interactive form's extractors
(`app.py`) return such text unchanged, as the counterexample shows. -/
theorem C4_extractor_failures :
    (∀ e, Api.extract_text_from_pdf (.error e) = "Fehler beim Lesen der PDF: " ++ e)
    ∧ (∀ pages, isBlank (joinPages pages) = true →
        Api.extract_text_from_pdf (.ok pages) =
          "Fehler: Kein extrahierbarer Text in der PDF-Datei.")
    ∧ (∀ pages, isBlank (joinPages pages) = false →
        Api.extract_text_from_pdf (.ok pages) = joinPages pages)
    ∧ (∀ e, Api.extract_text_from_docx (.error e) = "Fehler beim Lesen der DOCX: " ++ e)
    ∧ (∀ paragraphs, isBlank (String.join paragraphs) = true →
        Api.extract_text_from_docx (.ok paragraphs) =
          "Fehler: Kein extrahierbarer Text in der DOCX-Datei.")
    ∧ (∀ paragraphs, isBlank (String.join paragraphs) = false →
        Api.extract_text_from_docx (.ok paragraphs) = String.join paragraphs)
    ∧ (∀ e, App.extract_text_from_pdf (.error e) = "Fehler beim Lesen der PDF: " ++ e)
    ∧ (∀ e, App.extract_text_from_docx (.error e) = "Fehler beim Lesen der DOCX: " ++ e) := by
  refine ⟨fun e => rfl, ?_, ?_, fun e => rfl, ?_, ?_, fun e => rfl, fun e => rfl⟩
  · intro pages h
    rw [Api.extract_text_from_pdf]
    simp only [h, if_true]
  · intro pages h
    rw [Api.extract_text_from_pdf]
    simp only [h, Bool.false_eq_true, if_false]
  · intro paragraphs h
    rw [Api.extract_text_from_docx]
    simp only [h, if_true]
  · intro paragraphs h
    rw [Api.extract_text_from_docx]
    simp only [h, Bool.false_eq_true, if_false]

/-! ## Claim C5 -/

/-- C5.  If one of the six fields is empty, `generate_cover_letter`
returns the all-fields message; if the fields are non-empty but
`strengths` or `weaknesses` fails the validator, it returns the
validity message.  In both cases the result is the same for every
tagger `nlp` and every generation client `gen`: neither keyword
extraction nor the generation service is invoked. -/
theorem C5_generate_cover_letter_preconditions
    (nlp : String → List Token) (gen : String → Except String String)
    (cv_text job_text strengths weaknesses name company tone : String) :
    ((cv_text == "" || job_text == "" || strengths == "" || weaknesses == "" ||
        name == "" || company == "") = true →
      Api.generate_cover_letter nlp gen cv_text job_text strengths weaknesses
        name company tone = "Fehler: Alle Felder müssen ausgefüllt sein.")
    ∧ ((cv_text == "" || job_text == "" || strengths == "" || weaknesses == "" ||
        name == "" || company == "") = false →
      (!Api.is_valid_input strengths || !Api.is_valid_input weaknesses) = true →
      Api.generate_cover_letter nlp gen cv_text job_text strengths weaknesses
        name company tone =
          "Fehler: Stärken und Schwächen müssen sinnvolle Eingaben sein.") := by
  constructor
  · intro h
    rw [Api.generate_cover_letter]
    simp only [h, if_true]
  · intro h1 h2
    rw [Api.generate_cover_letter]
    simp only [h1, Bool.false_eq_true, if_false, h2, if_true]

/-! ## Claim C7 -/

set_option maxRecDepth 8192 in
set_option maxHeartbeats 1600000 in
/-- C7.  When the preconditions pass, `generate_cover_letter` calls the
generation client on exactly the structured prompt built by
`build_prompt` (handling the outcome with the `try/except` wrapper),
and that prompt embeds: the slice `cv_text[:1000]` — a literal prefix
of `cv_text` of length `min 1000 |cv_text|` — likewise for `job_text`,
the two comma-joined keyword lists of `extract_keywords`, and the
`strengths` and `weaknesses` strings verbatim. -/
theorem C7_prompt_contents
    (nlp : String → List Token) (gen : String → Except String String)
    (cv_text job_text strengths weaknesses name company tone : String)
    (h0 : (cv_text == "" || job_text == "" || strengths == "" || weaknesses == "" ||
        name == "" || company == "") = false)
    (h1 : Api.is_valid_input strengths = true)
    (h2 : Api.is_valid_input weaknesses = true) :
    Api.generate_cover_letter nlp gen cv_text job_text strengths weaknesses name company
        tone =
      matchGen (gen (Api.build_prompt tone name company cv_text
        (Api.extract_keywords (nlp cv_text)) job_text
        (Api.extract_keywords (nlp job_text)) strengths weaknesses))
    ∧ (pySliceStr 1000 cv_text).length = min 1000 cv_text.length
    ∧ cv_text.data = (pySliceStr 1000 cv_text).data ++ cv_text.data.drop 1000
    ∧ (pySliceStr 1000 job_text).length = min 1000 job_text.length
    ∧ job_text.data = (pySliceStr 1000 job_text).data ++ job_text.data.drop 1000
    ∧ containsSub (pySliceStr 1000 cv_text)
        (Api.build_prompt tone name company cv_text
          (Api.extract_keywords (nlp cv_text)) job_text
          (Api.extract_keywords (nlp job_text)) strengths weaknesses) = true
    ∧ containsSub (pySliceStr 1000 job_text)
        (Api.build_prompt tone name company cv_text
          (Api.extract_keywords (nlp cv_text)) job_text
          (Api.extract_keywords (nlp job_text)) strengths weaknesses) = true
    ∧ containsSub (joinComma (Api.extract_keywords (nlp cv_text)))
        (Api.build_prompt tone name company cv_text
          (Api.extract_keywords (nlp cv_text)) job_text
          (Api.extract_keywords (nlp job_text)) strengths weaknesses) = true
    ∧ containsSub (joinComma (Api.extract_keywords (nlp job_text)))
        (Api.build_prompt tone name company cv_text
          (Api.extract_keywords (nlp cv_text)) job_text
          (Api.extract_keywords (nlp job_text)) strengths weaknesses) = true
    ∧ containsSub strengths
        (Api.build_prompt tone name company cv_text
          (Api.extract_keywords (nlp cv_text)) job_text
          (Api.extract_keywords (nlp job_text)) strengths weaknesses) = true
    ∧ containsSub weaknesses
        (Api.build_prompt tone name company cv_text
          (Api.extract_keywords (nlp cv_text)) job_text
          (Api.extract_keywords (nlp job_text)) strengths weaknesses) = true := by
  refine ⟨?_, ?_, ?_, ?_, ?_, ?_, ?_, ?_, ?_, ?_, ?_⟩
  · rw [Api.generate_cover_letter]
    simp only [h0, Bool.false_eq_true, if_false, h1, h2, Bool.not_true, Bool.or_self,
      Bool.or_false, Bool.false_or]
  · rw [pySliceStr]
    show (cv_text.data.take 1000).length = min 1000 cv_text.length
    rw [List.length_take]
    rfl
  · exact (List.take_append_drop 1000 cv_text.data).symm
  · rw [pySliceStr]
    show (job_text.data.take 1000).length = min 1000 job_text.length
    rw [List.length_take]
    rfl
  · exact (List.take_append_drop 1000 job_text.data).symm
  all_goals
    simp only [containsSub, Api.build_prompt, String.data_append, List.append_assoc]
  all_goals
    repeat
      first
      | exact containsSubL_self _ _
      | apply containsSubL_append_right

/-- C7 witness: at a concrete valid input, with a client that reports a
quota error, `generate_cover_letter` returns exactly the wrapped
outcome of the client applied to the built prompt. -/
theorem C7_witness :
    Api.generate_cover_letter (fun _ => []) (fun _ => Except.error "Quota")
      "Lebenslauf Inhalt" "Stellenprofil Inhalt" "Teamfähigkeit stark"
      "Perfektionismus gross" "Max" "Bank AG" "Professionell" =
      "Fehler bei der API-Anfrage: Quota" := by
  have h := (C7_prompt_contents (fun _ => []) (fun _ => Except.error "Quota")
    "Lebenslauf Inhalt" "Stellenprofil Inhalt" "Teamfähigkeit stark"
    "Perfektionismus gross" "Max" "Bank AG" "Professionell"
    (by decide) (by decide) (by decide)).1
  rw [h]
  rfl

/-! ## Claim C9 -/

/-- C9.  Error classification at the endpoint is a substring check for
the marker word on the extracted text: for a résumé PDF whose extraction
succeeds with non-whitespace text containing the substring `Fehler`
("Die Fehleranalyse gehört zu meinen Aufgaben"), `/generate_cover_letter`
answers 400 with the processing-error message — for every tagger and
every generation client, i.e. without the generation service being
invoked — exactly as if extraction had failed. -/
theorem C9_fehler_substring_conflation
    (nlp : String → List Token) (gen : String → Except String String) :
    Api.extract_text_from_pdf
        (Except.ok [some "Die Fehleranalyse gehört zu meinen Aufgaben"]) =
      "Die Fehleranalyse gehört zu meinen Aufgaben"
    ∧ isBlank "Die Fehleranalyse gehört zu meinen Aufgaben" = false
    ∧ containsSub "Fehler" "Die Fehleranalyse gehört zu meinen Aufgaben" = true
    ∧ Api.api_generate_cover_letter nlp gen
        ⟨some ⟨"application/pdf",
            Except.ok [some "Die Fehleranalyse gehört zu meinen Aufgaben"], Except.ok []⟩,
         some ⟨"application/pdf", Except.ok [some "Bankkaufmann Stelle in Vollzeit"],
            Except.ok []⟩,
         some "Teamfähigkeit stark", some "Perfektionismus gross",
         some "Max", some "Bank AG", none⟩ =
      Api.errorResponse 400
        "Fehler beim Verarbeiten des Lebenslaufs: Die Fehleranalyse gehört zu meinen Aufgaben" := by
  exact ⟨rfl, by decide, by decide, rfl⟩

/-! ## Claim C6 -/

/-- C6 counterexample.  The claim quantifies over every request whose
résumé PDF yields the no-extractable-text failure and asserts a message
indicating the extraction failure.  For such a résumé uploaded without
a job file, the endpoint answers 400 with the missing-job-file message,
which mentions neither the marker word nor the extraction failure. -/
theorem C6_counterexample :
    Api.extract_text_from_pdf (Except.ok [some "   "]) =
      "Fehler: Kein extrahierbarer Text in der PDF-Datei."
    ∧ Api.api_generate_cover_letter (fun _ => []) (fun _ => Except.ok "Brief")
        ⟨some ⟨"application/pdf", Except.ok [some "   "], Except.ok []⟩, none,
         some "Teamfähigkeit stark", some "Perfektionismus gross",
         some "Max", some "Bank AG", none⟩ =
      Api.errorResponse 400 "Bitte laden Sie ein Stellenprofil hoch."
    ∧ containsSub "Fehler" "Bitte laden Sie ein Stellenprofil hoch." = false
    ∧ containsSub "extrahierbar" "Bitte laden Sie ein Stellenprofil hoch." = false := by
  exact ⟨by decide, rfl, by decide, by decide⟩

/-- C6, amended.  For every request whose résumé is a PDF upload that
the extractor maps to the no-extractable-text failure, the endpoint
answers with status 400, the response is the same for every tagger and
every generation client (the generation service is never invoked), and
whenever a job file with the accepted PDF media type is also present the
message is the processing-error message carrying the extraction
failure. -/
theorem C6_no_text_pdf_yields_400
    (req : Api.Request) (f : Api.UploadedFile)
    (nlp nlp' : String → List Token) (gen gen' : String → Except String String)
    (hf : req.cv_file = some f)
    (hm : f.mimetype = "application/pdf")
    (hx : Api.extract_text_from_pdf f.pdfRead =
      "Fehler: Kein extrahierbarer Text in der PDF-Datei.") :
    (Api.api_generate_cover_letter nlp gen req).status = 400
    ∧ Api.api_generate_cover_letter nlp gen req =
        Api.api_generate_cover_letter nlp' gen' req
    ∧ (∀ jf, req.job_file = some jf → jf.mimetype = "application/pdf" →
        Api.api_generate_cover_letter nlp gen req =
          Api.errorResponse 400
            "Fehler beim Verarbeiten des Lebenslaufs: Fehler: Kein extrahierbarer Text in der PDF-Datei.") := by
  obtain ⟨cvf, jobf, strengths, weaknesses, name, company, tone⟩ := req
  simp only at hf
  subst hf
  have hmarker : containsSub "Fehler"
      "Fehler: Kein extrahierbarer Text in der PDF-Datei." = true := by decide
  cases jobf with
  | none =>
    refine ⟨rfl, rfl, ?_⟩
    intro jf hjf
    cases hjf
  | some jf =>
    by_cases hjm : jf.mimetype = "application/pdf"
    · have h1 : Api.api_generate_cover_letter nlp gen
          ⟨some f, some jf, strengths, weaknesses, name, company, tone⟩ =
            Api.errorResponse 400
              "Fehler beim Verarbeiten des Lebenslaufs: Fehler: Kein extrahierbarer Text in der PDF-Datei." := by
        rw [Api.api_generate_cover_letter]
        simp only [hm, hjm, beq_self_eq_true, if_true, hx, hmarker]
        rfl
      have h1' : Api.api_generate_cover_letter nlp' gen'
          ⟨some f, some jf, strengths, weaknesses, name, company, tone⟩ =
            Api.errorResponse 400
              "Fehler beim Verarbeiten des Lebenslaufs: Fehler: Kein extrahierbarer Text in der PDF-Datei." := by
        rw [Api.api_generate_cover_letter]
        simp only [hm, hjm, beq_self_eq_true, if_true, hx, hmarker]
        rfl
      refine ⟨by rw [h1]; rfl, by rw [h1, h1'], fun _ _ _ => h1⟩
    · have hjm' : (jf.mimetype == "application/pdf") = false := by
        simpa using hjm
      have h1 : Api.api_generate_cover_letter nlp gen
          ⟨some f, some jf, strengths, weaknesses, name, company, tone⟩ =
            Api.errorResponse 400
              ("Ungültiges Stellenprofil-Format: " ++ jf.mimetype ++ ". Nur PDF erlaubt.") := by
        rw [Api.api_generate_cover_letter]
        simp only [hm, beq_self_eq_true, if_true, hjm', Bool.false_eq_true, if_false]
      have h1' : Api.api_generate_cover_letter nlp' gen'
          ⟨some f, some jf, strengths, weaknesses, name, company, tone⟩ =
            Api.errorResponse 400
              ("Ungültiges Stellenprofil-Format: " ++ jf.mimetype ++ ". Nur PDF erlaubt.") := by
        rw [Api.api_generate_cover_letter]
        simp only [hm, beq_self_eq_true, if_true, hjm', Bool.false_eq_true, if_false]
      refine ⟨by rw [h1]; rfl, by rw [h1, h1'], ?_⟩
      intro jf' hjf' hjm2
      cases hjf'
      exact absurd hjm2 hjm

/-- C6 witness: a concrete textless résumé PDF together with a valid
PDF job file is answered 400 with the processing-error message, for a
concrete tagger and client. -/
theorem C6_witness :
    Api.api_generate_cover_letter (fun _ => []) (fun _ => Except.ok "Brief")
        ⟨some ⟨"application/pdf", Except.ok [some "   "], Except.ok []⟩,
         some ⟨"application/pdf", Except.ok [some "Bankkaufmann Stelle in Vollzeit"],
            Except.ok []⟩,
         some "Teamfähigkeit stark", some "Perfektionismus gross",
         some "Max", some "Bank AG", none⟩ =
      Api.errorResponse 400
        "Fehler beim Verarbeiten des Lebenslaufs: Fehler: Kein extrahierbarer Text in der PDF-Datei." :=
  (C6_no_text_pdf_yields_400
    ⟨some ⟨"application/pdf", Except.ok [some "   "], Except.ok []⟩,
     some ⟨"application/pdf", Except.ok [some "Bankkaufmann Stelle in Vollzeit"],
        Except.ok []⟩,
     some "Teamfähigkeit stark", some "Perfektionismus gross",
     some "Max", some "Bank AG", none⟩
    ⟨"application/pdf", Except.ok [some "   "], Except.ok []⟩
    (fun _ => []) (fun _ => []) (fun _ => Except.ok "Brief") (fun _ => Except.ok "Brief")
    rfl rfl (by decide)).2.2
    ⟨"application/pdf", Except.ok [some "Bankkaufmann Stelle in Vollzeit"], Except.ok []⟩
    rfl rfl

/-! ## Claim C8: lemmas about the double-newline split -/

/-- A double newline occurring at the head of a two-or-more list is a
failed prefix when the list carries none. -/
theorem no_sep_head (c d : Char) (rest : List Char)
    (h : containsSubL ['\n', '\n'] (c :: d :: rest) = false) :
    ¬(c = '\n' ∧ d = '\n') := by
  rintro ⟨rfl, rfl⟩
  have : listPfx ['\n', '\n'] ('\n' :: '\n' :: rest) = true := by
    simp [listPfx]
  rw [containsSubL, Bool.or_eq_false_iff] at h
  rw [h.1] at this
  cases this

/-- The double-newline-free property passes to the tail. -/
theorem no_sep_tail (c : Char) (rest : List Char)
    (h : containsSubL ['\n', '\n'] (c :: rest) = false) :
    containsSubL ['\n', '\n'] rest = false := by
  rw [containsSubL, Bool.or_eq_false_iff] at h
  exact h.2

/-- The two-or-more-element unfolding of `split2NL`. -/
theorem split2NL_cons2 (c d : Char) (rest : List Char) :
    split2NL (c :: d :: rest) =
      if c = '\n' ∧ d = '\n' then [] :: split2NL rest
      else consHead c (split2NL (d :: rest)) := rfl

/-- A chunk without the separator is returned whole by the split. -/
theorem split2NL_no_sep (l : List Char)
    (h : containsSubL ['\n', '\n'] l = false) : split2NL l = [l] := by
  induction l with
  | nil => rfl
  | cons c rest ih =>
    cases rest with
    | nil => rfl
    | cons d rest2 =>
      have hcd : ¬(c = '\n' ∧ d = '\n') := no_sep_head c d rest2 h
      have htail : containsSubL ['\n', '\n'] (d :: rest2) = false := no_sep_tail c _ h
      rw [split2NL_cons2, if_neg hcd, ih htail]
      rfl

/-- Splitting a text of the form `A ++ "\n\n" ++ B` peels off `A` when
`A` neither contains the separator nor ends with a newline. -/
theorem split2NL_append_sep (B : List Char) : ∀ A : List Char,
    containsSubL ['\n', '\n'] A = false → A.getLast? ≠ some '\n' →
    split2NL (A ++ '\n' :: '\n' :: B) = A :: split2NL B := by
  intro A
  induction A with
  | nil =>
    intro _ _
    rw [List.nil_append, split2NL_cons2, if_pos ⟨rfl, rfl⟩]
  | cons c A' ih =>
    intro h hlast
    cases A' with
    | nil =>
      have hc : ¬(c = '\n' ∧ ('\n' : Char) = '\n') := by
        rintro ⟨rfl, -⟩
        exact hlast rfl
      rw [List.cons_append, List.nil_append, split2NL_cons2, if_neg hc, split2NL_cons2,
        if_pos ⟨rfl, rfl⟩]
      rfl
    | cons d A'' =>
      have hcd : ¬(c = '\n' ∧ d = '\n') := no_sep_head c d A'' h
      have htail : containsSubL ['\n', '\n'] (d :: A'') = false := no_sep_tail c _ h
      have hlast' : (d :: A'').getLast? ≠ some '\n' := by
        rwa [List.getLast?_cons_cons] at hlast
      rw [List.cons_append, List.cons_append, split2NL_cons2, if_neg hcd]
      rw [show (d :: A'') ++ '\n' :: '\n' :: B = d :: (A'' ++ '\n' :: '\n' :: B) from rfl]
        at ih
      rw [ih htail hlast']
      rfl

/-- Stripping ignores a trailing newline. -/
theorem pyStrip_snoc_nl (m : List Char) : pyStrip ⟨m ++ ['\n']⟩ = pyStrip ⟨m⟩ := by
  rw [pyStrip, pyStrip]
  show (⟨(((m ++ ['\n']).dropWhile isPyWS).reverse.dropWhile isPyWS).reverse⟩ : String) = _
  rw [List.dropWhile_append]
  by_cases he : (m.dropWhile isPyWS).isEmpty
  · rw [if_pos he]
    rw [List.isEmpty_iff] at he
    rw [he]
    rfl
  · rw [if_neg he]
    rw [List.isEmpty_iff] at he
    obtain ⟨x, xs, hxs⟩ : ∃ x xs, m.dropWhile isPyWS = x :: xs := by
      cases hm : m.dropWhile isPyWS with
      | nil => exact absurd hm he
      | cons x xs => exact ⟨x, xs, rfl⟩
    rw [hxs]
    show (⟨(((x :: xs) ++ ['\n']).reverse.dropWhile isPyWS).reverse⟩ : String) =
      ⟨((x :: xs).reverse.dropWhile isPyWS).reverse⟩
    rw [List.reverse_append]
    show (⟨((['\n'] ++ (x :: xs).reverse).dropWhile isPyWS).reverse⟩ : String) = _
    rw [List.singleton_append, List.dropWhile_cons]
    simp only [show isPyWS '\n' = true from rfl, if_true]

/-- Stripping ignores a leading newline. -/
theorem pyStrip_cons_nl (m : List Char) : pyStrip ⟨'\n' :: m⟩ = pyStrip ⟨m⟩ := by
  rw [pyStrip, pyStrip]
  show (⟨((('\n' :: m).dropWhile isPyWS).reverse.dropWhile isPyWS).reverse⟩ : String) = _
  rw [List.dropWhile_cons]
  simp only [show isPyWS '\n' = true from rfl, if_true]

/-- C8 counterexample.  The claim asks only that neither part contain a
blank-line boundary.  With `A = "x\n"` and `B = "\ny"` the junction
around the separator creates two adjacent separator occurrences, the
split yields three chunks, and the exported document carries an extra
empty paragraph between the two trimmed parts. -/
theorem C8_counterexample :
    Api.generate_docx_document ("x\n" ++ "\n\n" ++ "\ny") =
      [DocxBlock.heading 1 "Motivationsschreiben", DocxBlock.para "x",
       DocxBlock.para "", DocxBlock.para "y"]
    ∧ containsSub "\n\n" "x\n" = false
    ∧ containsSub "\n\n" "\ny" = false
    ∧ pyStrip "x\n" = "x"
    ∧ pyStrip "\ny" = "y" := by
  exact ⟨by decide, by decide, by decide, by decide, by decide⟩

/-- C8, amended.  For a letter `A ++ "\n\n" ++ B` where neither part
contains a double newline and not both `A` ends with a newline and `B`
begins with one, the exported document is exactly the fixed level-1
heading followed by the two paragraph blocks `strip A` and `strip B`;
and the interactive form's `save_cover_letter` builds the identical
document for every letter. -/
theorem C8_export_two_paragraphs (A B : String)
    (hA : containsSub "\n\n" A = false)
    (hB : containsSub "\n\n" B = false)
    (hnot : ¬(A.data.getLast? = some '\n' ∧ B.data.head? = some '\n')) :
    Api.generate_docx_document (A ++ "\n\n" ++ B) =
      [DocxBlock.heading 1 "Motivationsschreiben",
       DocxBlock.para (pyStrip A), DocxBlock.para (pyStrip B)]
    ∧ (∀ s, App.save_cover_letter s = Api.generate_docx_document s) := by
  refine ⟨?_, fun _ => rfl⟩
  have hA' : containsSubL ['\n', '\n'] A.data = false := hA
  have hB' : containsSubL ['\n', '\n'] B.data = false := hB
  have hdata : (A ++ "\n\n" ++ B).data = A.data ++ '\n' :: '\n' :: B.data := by
    rw [String.data_append, String.data_append, List.append_assoc]
    rfl
  rw [Api.generate_docx_document, hdata]
  by_cases hlast : A.data.getLast? = some '\n'
  · have hhead : B.data.head? ≠ some '\n' := fun h => hnot ⟨hlast, h⟩
    obtain ⟨A', hA'eq⟩ := List.getLast?_eq_some_iff.mp hlast
    have hA'last : A'.getLast? ≠ some '\n' := by
      intro hl
      obtain ⟨A'', hA''⟩ := List.getLast?_eq_some_iff.mp hl
      have htrue : containsSubL ['\n', '\n'] A.data = true := by
        rw [hA'eq, hA'', show (A'' ++ ['\n']) ++ ['\n'] =
          A'' ++ (['\n', '\n'] ++ []) by simp]
        exact containsSubL_append _ _ _
      rw [hA'] at htrue
      cases htrue
    have hA'noDD : containsSubL ['\n', '\n'] A' = false := by
      cases hc : containsSubL ['\n', '\n'] A' with
      | false => rfl
      | true =>
        have htrue : containsSubL ['\n', '\n'] A.data = true := by
          rw [hA'eq]
          exact containsSubL_append_left _ _ _ hc
        rw [hA'] at htrue
        cases htrue
    have hsplit : split2NL (A.data ++ '\n' :: '\n' :: B.data) =
        A' :: split2NL ('\n' :: B.data) := by
      rw [show A.data ++ '\n' :: '\n' :: B.data =
        A' ++ '\n' :: '\n' :: ('\n' :: B.data) by rw [hA'eq]; simp]
      exact split2NL_append_sep ('\n' :: B.data) A' hA'noDD hA'last
    have hBnoDD : containsSubL ['\n', '\n'] ('\n' :: B.data) = false := by
      cases hBd : B.data with
      | nil => decide
      | cons b bs =>
        have hbne : ¬(('\n' : Char) = '\n' ∧ b = '\n') := by
          rintro ⟨-, rfl⟩
          exact hhead (by rw [hBd]; rfl)
        rw [containsSubL, Bool.or_eq_false_iff]
        constructor
        · show listPfx ['\n', '\n'] ('\n' :: b :: bs) = false
          cases hb : ('\n' == b) with
          | false => simp [listPfx, hb]
          | true =>
            exact absurd ⟨rfl, (beq_iff_eq.mp hb).symm⟩ hbne
        · rw [← hBd]
          exact hB'
    rw [hsplit, split2NL_no_sep _ hBnoDD]
    have hstripA : pyStrip ⟨A'⟩ = pyStrip A := by
      conv_rhs => rw [show A = ⟨A.data⟩ from rfl, hA'eq]
      exact (pyStrip_snoc_nl A').symm
    have hstripB : pyStrip ⟨'\n' :: B.data⟩ = pyStrip B := by
      rw [pyStrip_cons_nl]
    rw [List.map_cons, List.map_cons, List.map_nil, hstripA, hstripB]
  · rw [split2NL_append_sep B.data A.data hA' hlast, split2NL_no_sep B.data hB']
    rfl

/-- C8 witness: exporting a concrete two-paragraph letter yields the
heading and exactly the two stripped paragraphs. -/
theorem C8_witness :
    Api.generate_docx_document
        ("Sehr geehrte Damen und Herren" ++ "\n\n" ++ "Mit freundlichen Grüssen") =
      [DocxBlock.heading 1 "Motivationsschreiben",
       DocxBlock.para (pyStrip "Sehr geehrte Damen und Herren"),
       DocxBlock.para (pyStrip "Mit freundlichen Grüssen")] :=
  (C8_export_two_paragraphs "Sehr geehrte Damen und Herren" "Mit freundlichen Grüssen"
    (by decide) (by decide) (by decide)).1
